import Mathlib

/-!
Verification development for the espTari EBIN builder
(`src/tools/ebin_builder/ebin_builder.py`).

The Python tool drives an external RISC-V toolchain, extracts sections and
relocations from the linked ELF, and serializes an EBIN container.  The
shallow embedding below models:

* the pure serializer `build_ebin` (struct packing modeled with explicit
  range checks, since `struct.pack('<I', v)` raises outside `[0, 2^32)`);
* the post-link extraction stages over an abstract view of the linked ELF
  (`Elf`), which records exactly the facts the tool scrapes from
  `readelf -S` (section name/address/size), `readelf -r` (relocation
  sections and entries), `readelf -x .got` (section contents, modeled as
  the little-endian words of the raw bytes) and `nm` (defined symbols);
* `objcopy -O binary -j ...` as the byte image of the requested sections
  that exist, laid out at their addresses relative to the lowest one with
  zero-filled gaps, failing when none of the requested sections exists;
* the `main` orchestration as an `Except`-valued pipeline where the output
  bytes exist only when every stage succeeded.
-/

/-- EBIN format constants (source lines 23-25). -/
def EBIN_MAGIC : Nat := 0x4E494245

def EBIN_VERSION : Nat := 1

/-- Relocation type emitted by the builder (source line 36). -/
def EBIN_RELOC_ABSOLUTE : Nat := 0

/-- The `COMPONENT_TYPES` dict (source lines 28-33); `none` models a
`KeyError` on an unknown key. -/
def componentTypes (s : String) : Option Nat :=
  if s = "cpu" then some 1
  else if s = "video" then some 2
  else if s = "audio" then some 3
  else if s = "io" then some 4
  else none

/-- EBIN relocation entry (source dataclass `Relocation`).  The offset is an
integer because the extractor computes it by Python subtraction, which can go
negative.  `sec` renders the source's `section` field (0 = code, 1 = data),
which is a reserved word in Lean. -/
structure Relocation where
  offset : Int
  reloc_type : Nat
  sec : Nat
deriving DecidableEq, Repr

/-- One section line as scraped from `readelf -S`: name, virtual address,
size, and the raw contents (what `objcopy`/`readelf -x` would expose). -/
structure ElfSection where
  name : String
  addr : Nat
  size : Nat
  content : List Nat
deriving DecidableEq, Repr

/-- One entry of a relocation section as scraped from `readelf -r`:
the reported VMA offset and the textual relocation type. -/
structure RelocEntry where
  offset : Nat
  rtype : String
deriving DecidableEq, Repr

/-- One relocation section of `readelf -r` output: its name (as printed in
the `Relocation section '...'` header line) and its entries. -/
structure RelocSection where
  name : String
  entries : List RelocEntry
deriving DecidableEq, Repr

/-- Abstract view of the linked ELF: everything the tool scrapes from
`readelf` and `nm`.  `symbols` lists the defined symbols (address, name) in
`nm` output order. -/
structure Elf where
  sections : List ElfSection
  relocSecs : List RelocSection
  symbols : List (Nat × String)
deriving DecidableEq, Repr

/-- Little-endian 32-bit serialization of a value already checked to be in
range: the four bytes of `struct.pack('<I', n)`. -/
def pack32 (n : Nat) : List Nat :=
  [n % 256, n / 256 % 256, n / 65536 % 256, n / 16777216 % 256]

/-- The two bytes of `struct.pack('<H', n)`. -/
def pack16 (n : Nat) : List Nat :=
  [n % 256, n / 256 % 256]

/-- Little-endian 32-bit read at byte offset `off` (missing bytes read 0). -/
def readLE32 (s : List Nat) (off : Nat) : Nat :=
  s.getD off 0 + 256 * s.getD (off + 1) 0 + 65536 * s.getD (off + 2) 0 +
    16777216 * s.getD (off + 3) 0

/-- Little-endian 16-bit read at byte offset `off`. -/
def readLE16 (s : List Nat) (off : Nat) : Nat :=
  s.getD off 0 + 256 * s.getD (off + 1) 0

/-- The 4-byte alignment padding of the code blob (source lines 413-415):
zero bytes appended when `len(code) % 4 != 0`. -/
def pad4 (code : List Nat) : List Nat :=
  if code.length % 4 = 0 then code
  else code ++ List.replicate (4 - code.length % 4) 0

/-- `struct.pack('<IHHIIIIIIIIIIIII', ...)` for the 60-byte header (source
lines 418-435): fails (`struct.error`) unless every field is in range for
its width.  Arguments follow the source's field order. -/
def packHeader (magic version ctype flags codeSize dataSize bssSize : Nat)
    (entryOffset : Int)
    (ifaceVersion minRam relocCount relocOffset codeOffset dataOffset
      symOffset symCount : Nat) : Option (List Nat) :=
  if magic < 2 ^ 32 ∧ version < 2 ^ 16 ∧ ctype < 2 ^ 16 ∧ flags < 2 ^ 32 ∧
      codeSize < 2 ^ 32 ∧ dataSize < 2 ^ 32 ∧ bssSize < 2 ^ 32 ∧
      0 ≤ entryOffset ∧ entryOffset < 2 ^ 32 ∧
      ifaceVersion < 2 ^ 32 ∧ minRam < 2 ^ 32 ∧ relocCount < 2 ^ 32 ∧
      relocOffset < 2 ^ 32 ∧ codeOffset < 2 ^ 32 ∧ dataOffset < 2 ^ 32 ∧
      symOffset < 2 ^ 32 ∧ symCount < 2 ^ 32 then
    some (pack32 magic ++ pack16 version ++ pack16 ctype ++ pack32 flags ++
      pack32 codeSize ++ pack32 dataSize ++ pack32 bssSize ++
      pack32 entryOffset.toNat ++ pack32 ifaceVersion ++ pack32 minRam ++
      pack32 relocCount ++ pack32 relocOffset ++ pack32 codeOffset ++
      pack32 dataOffset ++ pack32 symOffset ++ pack32 symCount)
  else none

/-- `struct.pack('<IBBH', r.offset, r.reloc_type, r.sec, 0)` for one
relocation entry (source line 442). -/
def packReloc (r : Relocation) : Option (List Nat) :=
  if 0 ≤ r.offset ∧ r.offset < 2 ^ 32 ∧ r.reloc_type < 2 ^ 8 ∧
      r.sec < 2 ^ 8 then
    some (pack32 r.offset.toNat ++ [r.reloc_type, r.sec] ++ pack16 0)
  else none

/-- The relocation-table serialization loop (source lines 440-442). -/
def packRelocs : List Relocation → Option (List Nat)
  | [] => some []
  | r :: rs =>
    match packReloc r, packRelocs rs with
    | some b, some bs => some (b ++ bs)
    | _, _ => none

/-- `build_ebin` (source lines 403-445): compute offsets, pad the code blob
to 4 bytes, pack the 60-byte header, the relocation table, and concatenate
`header ++ reloc_table ++ code ++ data`.  `none` models an uncaught Python
exception (`KeyError` on the component type or `struct.error`). -/
def build_ebin (ctype : String) (flags ifaceVersion minRam : Nat)
    (code data : List Nat) (bssSize : Nat) (entryOffset : Int)
    (relocations : List Relocation) : Option (List Nat) :=
  let code' := pad4 code
  let codeOffset := 60 + relocations.length * 8
  let dataOffset := codeOffset + code'.length
  match componentTypes ctype with
  | none => none
  | some t =>
    match packHeader EBIN_MAGIC EBIN_VERSION t flags code'.length data.length
        bssSize entryOffset ifaceVersion minRam relocations.length 60
        codeOffset dataOffset 0 0 with
    | none => none
    | some header =>
      match packRelocs relocations with
      | none => none
      | some relocData => some (header ++ relocData ++ code' ++ data)

/-- `leadMatch n h` is true when `n` is an initial segment of `h`
(element-wise equality). -/
def leadMatch : List Char → List Char → Bool
  | [], _ => true
  | _ :: _, [] => false
  | a :: as, b :: bs => a = b && leadMatch as bs

/-- `hasSub n h` is true when `n` occurs contiguously inside `h`; this models
Python's substring test `n in h`. -/
def hasSub (n : List Char) : List Char → Bool
  | [] => n.isEmpty
  | c :: t => leadMatch n (c :: t) || hasSub n t

/-- Python's `needle in hay` on strings. -/
def strHas (needle hay : String) : Bool :=
  hasSub needle.toList hay.toList

/-- Lookup of a section by exact name in the scraped section table.  Both
section-table parses in the source key a dict by the exact section name, so a
repeated name keeps the last occurrence. -/
def lookupSec (elf : Elf) (nm : String) : Option ElfSection :=
  (elf.sections.filter (fun s => s.name = nm)).getLast?

/-- `section_addrs.get('data', 0)` of `extract_relocations`. -/
def dataBase (elf : Elf) : Nat :=
  ((lookupSec elf ".data").map (fun s => s.addr)).getD 0

/-- `section_addrs.get('rodata', 0)` of `extract_relocations`. -/
def rodataBase (elf : Elf) : Nat :=
  ((lookupSec elf ".rodata").map (fun s => s.addr)).getD 0

/-- `section_addrs.get('bss', 0) + section_sizes.get('bss', 0)`: the end of
the component's addressable image used by the GOT heuristic (source line
357). -/
def bssEnd (elf : Elf) : Nat :=
  ((lookupSec elf ".bss").map (fun s => s.addr)).getD 0 +
    ((lookupSec elf ".bss").map (fun s => s.size)).getD 0

/-- The little-endian 32-bit word of the `.got` contents at byte offset `i`:
what the `readelf -x .got` hex-dump parse (source lines 363-371) yields for
the entry at address `got_addr + i`. -/
def gotWord (g : ElfSection) (i : Nat) : Nat :=
  readLE32 g.content i

/-- Classification of one `Relocation section` header line of `readelf -r`
output (source lines 315-327): data-blob relocation sections are recognized
by the substring tests `'.rela.data' in line` / `'.rela.rodata' in line` and
carry the base address used to normalize VMA offsets; any other section is
skipped (its entries would be code-blob ones, which are never emitted). -/
def secClass (elf : Elf) (name : String) : Option Nat :=
  if strHas ".rela.data" name then some (dataBase elf)
  else if strHas ".rela.rodata" name then some (rodataBase elf)
  else none

/-- The ELF-reported relocations the extractor emits (source lines 309-345):
for each data-targeting relocation section, each entry of type `R_RISCV_32`
becomes an ABSOLUTE data-blob relocation at `offset - base`. -/
def reportedRelocs (elf : Elf) : List Relocation :=
  elf.relocSecs.flatMap (fun rs =>
    match secClass elf rs.name with
    | none => []
    | some base => rs.entries.filterMap (fun e =>
        if e.rtype = "R_RISCV_32" then
          some ⟨(e.offset : Int) - (base : Int), EBIN_RELOC_ABSOLUTE, 1⟩
        else none))

/-- The GOT-synthesized relocations (source lines 352-398): when `.got`
exists with nonzero size, each 4-byte GOT entry whose offset is not already
relocated and whose value lies in `(0, bss_end]` yields an ABSOLUTE data-blob
relocation. -/
def synthesizedGot (elf : Elf) : List Relocation :=
  match lookupSec elf ".got" with
  | none => []
  | some g =>
    if 0 < g.size then
      let bssE := bssEnd elf
      let existing := (reportedRelocs elf).filterMap (fun r =>
        if r.sec = 1 then some r.offset else none)
      ((List.range ((g.size + 3) / 4)).map (fun k => 4 * k)).filterMap
        (fun i =>
          let entryValue := gotWord g i
          let dataOff : Int := ((g.addr + i : Nat) : Int) - (dataBase elf : Int)
          if dataOff ∈ existing then none
          else if 0 < entryValue ∧ entryValue ≤ bssE then
            some ⟨dataOff, EBIN_RELOC_ABSOLUTE, 1⟩
          else none)
    else []

/-- `extract_relocations` (source lines 280-400): the ELF-reported data-blob
relocations in read order, followed by the synthesized GOT relocations. -/
def extract_relocations (elf : Elf) : List Relocation :=
  reportedRelocs elf ++ synthesizedGot elf

/-- The byte an `objcopy -O binary` image holds at absolute address `a`:
the byte of the first listed section covering `a`, zero in gaps. -/
def byteAt : List ElfSection → Nat → Nat
  | [], _ => 0
  | s :: ss, a =>
    if s.addr ≤ a ∧ a < s.addr + s.content.length then
      s.content.getD (a - s.addr) 0
    else byteAt ss a

/-- Model of `objcopy -O binary -j n1 -j n2 ... elf out`: the image of the
requested sections that exist, laid out at their addresses relative to the
lowest one, with zero-filled gaps; fails when none of the requested sections
exists. -/
def objcopyExtract (elf : Elf) (names : List String) : Option (List Nat) :=
  match names.filterMap (lookupSec elf) with
  | [] => none
  | s :: ss =>
    let lo := (ss.map (fun t => t.addr)).foldl Nat.min s.addr
    let hi := (ss.map (fun t => t.addr + t.content.length)).foldl Nat.max
      (s.addr + s.content.length)
    some ((List.range (hi - lo)).map (fun i => byteAt (s :: ss) (lo + i)))

/-- `extract_sections` (source lines 185-236): code blob = `objcopy` of
`.text` + `.rodata` (a failure there propagates via `check=True`), data blob
= `objcopy` of `.data` plus `.got` when present (a failure there is swallowed
and yields an empty blob), BSS size from the section headers.  Note the
source never checks that `.text` itself is present. -/
def extract_sections (elf : Elf) : Option (List Nat × List Nat × Nat) :=
  match objcopyExtract elf [".text", ".rodata"] with
  | none => none
  | some codeData =>
    let dataSections := [".data"] ++
      (if (lookupSec elf ".got").isSome then [".got"] else [])
    let dataData := (objcopyExtract elf dataSections).getD []
    let bssSize := ((lookupSec elf ".bss").map (fun s => s.size)).getD 0
    some (codeData, dataData, bssSize)

/-- The `.text` base address of `get_entry_offset` (source lines 261-268,
274-275): the address on the first `readelf -S` line containing `.text`,
defaulting to 0 when none resolves. -/
def textBaseAddr (elf : Elf) : Nat :=
  ((elf.sections.find? (fun s => strHas ".text" s.name)).map
    (fun s => s.addr)).getD 0

/-- `get_entry_offset` (source lines 239-277): the last `nm` symbol line
matching the entry symbol gives `entry_addr`; the result is
`entry_addr - text_addr`, and a missing symbol is fatal (`sys.exit(1)`). -/
def get_entry_offset (entrySymbol : String) (elf : Elf) : Except String Int :=
  match (elf.symbols.filter (fun p => p.2 = entrySymbol)).getLast? with
  | none => .error "EntryNotFound"
  | some p => .ok ((p.1 : Int) - (textBaseAddr elf : Int))

/-- `os.path.basename` for the POSIX paths this tool handles: the part after
the last `/` (computed from the reversed character list). -/
def basename (s : String) : String :=
  ⟨(s.toList.reverse.takeWhile (fun c => c ≠ '/')).reverse⟩

/-- The root part of `os.path.splitext`: strip the final `.`-separated
extension, except when every character before the last dot is itself a dot
(so that e.g. a leading-dot name keeps its name). -/
def splitextRoot (s : String) : String :=
  let cs := s.toList
  match ((List.range cs.length).filter
      (fun i => cs.getD i ' ' = '.')).getLast? with
  | none => s
  | some i => if (cs.take i).all (fun c => c = '.') then s else ⟨cs.take i⟩

/-- The object-file path `compile_sources` derives for one source file
(source lines 144-146): `output_dir/<basename without extension>.o`. -/
def objPath (outputDir src : String) : String :=
  outputDir ++ "/" ++ splitextRoot (basename src) ++ ".o"

/-- `compile_sources` (source lines 107-159): one object file per source, in
order; a failing compiler invocation (modeled by the `compileOk` oracle)
aborts the pipeline.  Note the source performs no duplicate-name check. -/
def compile_sources (sources : List String) (outputDir : String)
    (compileOk : String → Bool) : Except String (List String) :=
  match sources with
  | [] => .ok []
  | src :: rest =>
    if compileOk src then
      match compile_sources rest outputDir compileOk with
      | .ok objs => .ok (objPath outputDir src :: objs)
      | .error e => .error e
    else .error ("CompileFailed " ++ src)

/-- The slice of the `EbinConfig` dataclass that the modeled stages read. -/
structure EbinConfig where
  sources : List String
  output : String
  component_type : String
  entry_symbol : String
  interface_version : Nat
  min_ram : Nat
  flags : Nat
deriving Repr

/-- Oracle for the external tool invocations of one run: whether the
toolchain probe succeeds, which compiler invocations succeed, whether the
link succeeds, and the linked ELF the `readelf`/`nm`/`objcopy` scrapes
describe. -/
structure ToolWorld where
  toolchainFound : Bool
  compileOk : String → Bool
  linkOk : Bool
  elf : Elf

/-- `main` (source lines 506-596) after argument parsing: probe the
toolchain, compile, link, extract sections, resolve the entry symbol,
extract relocations, build the EBIN.  Every failure aborts with a nonzero
exit (`.error`); the returned bytes are what the single final
`open(output, 'wb').write(...)` persists. -/
def mainRun (cfg : EbinConfig) (w : ToolWorld) : Except String (List Nat) :=
  if w.toolchainFound = false then .error "ToolchainMissing"
  else
    match compile_sources cfg.sources "tmp" w.compileOk with
    | .error e => .error e
    | .ok _objs =>
      if w.linkOk = false then .error "LinkFailed"
      else
        match extract_sections w.elf with
        | none => .error "MalformedElf"
        | some (code, dataBlob, bssSize) =>
          match get_entry_offset cfg.entry_symbol w.elf with
          | .error e => .error e
          | .ok entryOffset =>
            match build_ebin cfg.component_type cfg.flags
                cfg.interface_version cfg.min_ram code dataBlob bssSize
                entryOffset (extract_relocations w.elf) with
            | none => .error "PackError"
            | some bytes => .ok bytes

/-- The contents of the output file after a run: the EBIN byte stream when
the pipeline succeeded, nothing otherwise (the source writes the output in
one shot only after every stage has returned). -/
def writtenOutput (cfg : EbinConfig) (w : ToolWorld) : Option (List Nat) :=
  match mainRun cfg w with
  | .ok bytes => some bytes
  | .error _ => none

lemma le32_roundtrip (n : Nat) (h : n < 2 ^ 32) :
    n % 256 + 256 * (n / 256 % 256) + 65536 * (n / 65536 % 256) +
      16777216 * (n / 16777216 % 256) = n := by
  omega

lemma le16_roundtrip (n : Nat) (h : n < 2 ^ 16) :
    n % 256 + 256 * (n / 256 % 256) = n := by
  omega

lemma packReloc_length {r : Relocation} {b : List Nat}
    (h : packReloc r = some b) : b.length = 8 := by
  rw [packReloc] at h
  split at h
  · cases h; simp [pack32, pack16]
  · cases h

lemma packRelocs_length :
    ∀ {rs : List Relocation} {bs : List Nat},
      packRelocs rs = some bs → bs.length = 8 * rs.length := by
  intro rs
  induction rs with
  | nil => intro bs h; cases h; simp
  | cons r rs ih =>
    intro bs h
    rw [packRelocs] at h
    cases h1 : packReloc r with
    | none => rw [h1] at h; cases h
    | some b =>
      cases h2 : packRelocs rs with
      | none => rw [h1, h2] at h; cases h
      | some bs' =>
        rw [h1, h2] at h
        cases h
        have := packReloc_length h1
        have := ih h2
        simp [List.length_append, this, *]
        ring

lemma pad4_length (code : List Nat) :
    (pad4 code).length = 4 * ((code.length + 3) / 4) := by
  rw [pad4]
  split
  · omega
  · simp only [List.length_append, List.length_replicate]
    omega

lemma pad4_eq (code : List Nat) :
    pad4 code =
      code ++ List.replicate (4 * ((code.length + 3) / 4) - code.length) 0 := by
  rw [pad4]
  split
  · rw [show 4 * ((code.length + 3) / 4) - code.length = 0 by omega]
    simp
  · rw [show 4 * ((code.length + 3) / 4) - code.length =
      4 - code.length % 4 by omega]

lemma readLE32_shift (xs post : List Nat) (k : Nat) :
    readLE32 (xs ++ post) (xs.length + k) = readLE32 post k := by
  have g : ∀ j : Nat, (xs ++ post).getD (xs.length + k + j) 0 =
      post.getD (k + j) 0 := by
    intro j
    rw [show xs.length + k + j = xs.length + (k + j) by omega]
    rw [List.getD_append_right _ _ _ _ (by omega)]
    congr 1
    omega
  have g0 : (xs ++ post).getD (xs.length + k) 0 = post.getD k 0 := by
    have h0 := g 0
    simpa using h0
  simp only [readLE32]
  rw [g0, g 1, g 2, g 3]

lemma readLE16_shift (xs post : List Nat) (k : Nat) :
    readLE16 (xs ++ post) (xs.length + k) = readLE16 post k := by
  have g : ∀ j : Nat, (xs ++ post).getD (xs.length + k + j) 0 =
      post.getD (k + j) 0 := by
    intro j
    rw [show xs.length + k + j = xs.length + (k + j) by omega]
    rw [List.getD_append_right _ _ _ _ (by omega)]
    congr 1
    omega
  have g0 : (xs ++ post).getD (xs.length + k) 0 = post.getD k 0 := by
    have h0 := g 0
    simpa using h0
  simp only [readLE16]
  rw [g0, g 1]

lemma readLE32_pack32 (n : Nat) (h : n < 2 ^ 32) (post : List Nat) :
    readLE32 (pack32 n ++ post) 0 = n := by
  show n % 256 + 256 * (n / 256 % 256) + 65536 * (n / 65536 % 256) +
    16777216 * (n / 16777216 % 256) = n
  omega

lemma readLE16_pack16 (n : Nat) (h : n < 2 ^ 16) (post : List Nat) :
    readLE16 (pack16 n ++ post) 0 = n := by
  show n % 256 + 256 * (n / 256 % 256) = n
  omega

lemma header_reads
    (mg v t f cs ds bsz eo iv mr rc ro co dof so sc : Nat)
    (rest xs : List Nat)
    (hx : xs = pack32 mg ++ pack16 v ++ pack16 t ++ pack32 f ++ pack32 cs ++ pack32 ds ++ pack32 bsz ++ pack32 eo ++ pack32 iv ++ pack32 mr ++ pack32 rc ++ pack32 ro ++ pack32 co ++ pack32 dof ++ pack32 so ++ pack32 sc)
    (hmg : mg < 2 ^ 32)
    (hv : v < 2 ^ 16)
    (hcs : cs < 2 ^ 32)
    (hds : ds < 2 ^ 32)
    (hrc : rc < 2 ^ 32)
    (hro : ro < 2 ^ 32)
    (hco : co < 2 ^ 32)
    (hdof : dof < 2 ^ 32) :
    readLE32 (xs ++ rest) 0 = mg ∧
    readLE16 (xs ++ rest) 4 = v ∧
    readLE32 (xs ++ rest) 12 = cs ∧
    readLE32 (xs ++ rest) 16 = ds ∧
    readLE32 (xs ++ rest) 36 = rc ∧
    readLE32 (xs ++ rest) 40 = ro ∧
    readLE32 (xs ++ rest) 44 = co ∧
    readLE32 (xs ++ rest) 48 = dof := by
  subst hx
  simp only [List.append_assoc]
  refine ⟨?_, ?_, ?_, ?_, ?_, ?_, ?_, ?_⟩
  · 
    exact readLE32_pack32 mg hmg _
  · 
    rw [show (4 : Nat) = (pack32 mg).length + 0 from rfl,
      readLE16_shift]
    exact readLE16_pack16 v hv _
  · 
    rw [show (12 : Nat) = (pack32 mg).length + 8 from rfl,
      readLE32_shift]
    rw [show (8 : Nat) = (pack16 v).length + 6 from rfl,
      readLE32_shift]
    rw [show (6 : Nat) = (pack16 t).length + 4 from rfl,
      readLE32_shift]
    rw [show (4 : Nat) = (pack32 f).length + 0 from rfl,
      readLE32_shift]
    exact readLE32_pack32 cs hcs _
  · 
    rw [show (16 : Nat) = (pack32 mg).length + 12 from rfl,
      readLE32_shift]
    rw [show (12 : Nat) = (pack16 v).length + 10 from rfl,
      readLE32_shift]
    rw [show (10 : Nat) = (pack16 t).length + 8 from rfl,
      readLE32_shift]
    rw [show (8 : Nat) = (pack32 f).length + 4 from rfl,
      readLE32_shift]
    rw [show (4 : Nat) = (pack32 cs).length + 0 from rfl,
      readLE32_shift]
    exact readLE32_pack32 ds hds _
  · 
    rw [show (36 : Nat) = (pack32 mg).length + 32 from rfl,
      readLE32_shift]
    rw [show (32 : Nat) = (pack16 v).length + 30 from rfl,
      readLE32_shift]
    rw [show (30 : Nat) = (pack16 t).length + 28 from rfl,
      readLE32_shift]
    rw [show (28 : Nat) = (pack32 f).length + 24 from rfl,
      readLE32_shift]
    rw [show (24 : Nat) = (pack32 cs).length + 20 from rfl,
      readLE32_shift]
    rw [show (20 : Nat) = (pack32 ds).length + 16 from rfl,
      readLE32_shift]
    rw [show (16 : Nat) = (pack32 bsz).length + 12 from rfl,
      readLE32_shift]
    rw [show (12 : Nat) = (pack32 eo).length + 8 from rfl,
      readLE32_shift]
    rw [show (8 : Nat) = (pack32 iv).length + 4 from rfl,
      readLE32_shift]
    rw [show (4 : Nat) = (pack32 mr).length + 0 from rfl,
      readLE32_shift]
    exact readLE32_pack32 rc hrc _
  · 
    rw [show (40 : Nat) = (pack32 mg).length + 36 from rfl,
      readLE32_shift]
    rw [show (36 : Nat) = (pack16 v).length + 34 from rfl,
      readLE32_shift]
    rw [show (34 : Nat) = (pack16 t).length + 32 from rfl,
      readLE32_shift]
    rw [show (32 : Nat) = (pack32 f).length + 28 from rfl,
      readLE32_shift]
    rw [show (28 : Nat) = (pack32 cs).length + 24 from rfl,
      readLE32_shift]
    rw [show (24 : Nat) = (pack32 ds).length + 20 from rfl,
      readLE32_shift]
    rw [show (20 : Nat) = (pack32 bsz).length + 16 from rfl,
      readLE32_shift]
    rw [show (16 : Nat) = (pack32 eo).length + 12 from rfl,
      readLE32_shift]
    rw [show (12 : Nat) = (pack32 iv).length + 8 from rfl,
      readLE32_shift]
    rw [show (8 : Nat) = (pack32 mr).length + 4 from rfl,
      readLE32_shift]
    rw [show (4 : Nat) = (pack32 rc).length + 0 from rfl,
      readLE32_shift]
    exact readLE32_pack32 ro hro _
  · 
    rw [show (44 : Nat) = (pack32 mg).length + 40 from rfl,
      readLE32_shift]
    rw [show (40 : Nat) = (pack16 v).length + 38 from rfl,
      readLE32_shift]
    rw [show (38 : Nat) = (pack16 t).length + 36 from rfl,
      readLE32_shift]
    rw [show (36 : Nat) = (pack32 f).length + 32 from rfl,
      readLE32_shift]
    rw [show (32 : Nat) = (pack32 cs).length + 28 from rfl,
      readLE32_shift]
    rw [show (28 : Nat) = (pack32 ds).length + 24 from rfl,
      readLE32_shift]
    rw [show (24 : Nat) = (pack32 bsz).length + 20 from rfl,
      readLE32_shift]
    rw [show (20 : Nat) = (pack32 eo).length + 16 from rfl,
      readLE32_shift]
    rw [show (16 : Nat) = (pack32 iv).length + 12 from rfl,
      readLE32_shift]
    rw [show (12 : Nat) = (pack32 mr).length + 8 from rfl,
      readLE32_shift]
    rw [show (8 : Nat) = (pack32 rc).length + 4 from rfl,
      readLE32_shift]
    rw [show (4 : Nat) = (pack32 ro).length + 0 from rfl,
      readLE32_shift]
    exact readLE32_pack32 co hco _
  · 
    rw [show (48 : Nat) = (pack32 mg).length + 44 from rfl,
      readLE32_shift]
    rw [show (44 : Nat) = (pack16 v).length + 42 from rfl,
      readLE32_shift]
    rw [show (42 : Nat) = (pack16 t).length + 40 from rfl,
      readLE32_shift]
    rw [show (40 : Nat) = (pack32 f).length + 36 from rfl,
      readLE32_shift]
    rw [show (36 : Nat) = (pack32 cs).length + 32 from rfl,
      readLE32_shift]
    rw [show (32 : Nat) = (pack32 ds).length + 28 from rfl,
      readLE32_shift]
    rw [show (28 : Nat) = (pack32 bsz).length + 24 from rfl,
      readLE32_shift]
    rw [show (24 : Nat) = (pack32 eo).length + 20 from rfl,
      readLE32_shift]
    rw [show (20 : Nat) = (pack32 iv).length + 16 from rfl,
      readLE32_shift]
    rw [show (16 : Nat) = (pack32 mr).length + 12 from rfl,
      readLE32_shift]
    rw [show (12 : Nat) = (pack32 rc).length + 8 from rfl,
      readLE32_shift]
    rw [show (8 : Nat) = (pack32 ro).length + 4 from rfl,
      readLE32_shift]
    rw [show (4 : Nat) = (pack32 co).length + 0 from rfl,
      readLE32_shift]
    exact readLE32_pack32 dof hdof _

lemma pack32_length (n : Nat) : (pack32 n).length = 4 := rfl

lemma pack16_length (n : Nat) : (pack16 n).length = 2 := rfl


lemma packHeader_chain {magic version ctype flags codeSize dataSize bssSize
    ifaceVersion minRam relocCount relocOffset codeOffset dataOffset
    symOffset symCount : Nat} {entryOffset : Int} {b : List Nat}
    (h : packHeader magic version ctype flags codeSize dataSize bssSize
      entryOffset ifaceVersion minRam relocCount relocOffset codeOffset
      dataOffset symOffset symCount = some b) :
    b = pack32 magic ++ pack16 version ++ pack16 ctype ++ pack32 flags ++
      pack32 codeSize ++ pack32 dataSize ++ pack32 bssSize ++
      pack32 entryOffset.toNat ++ pack32 ifaceVersion ++ pack32 minRam ++
      pack32 relocCount ++ pack32 relocOffset ++ pack32 codeOffset ++
      pack32 dataOffset ++ pack32 symOffset ++ pack32 symCount := by
  rw [packHeader] at h
  split at h
  · cases h; rfl
  · cases h

lemma packHeader_bounds {magic version ctype flags codeSize dataSize bssSize
    ifaceVersion minRam relocCount relocOffset codeOffset dataOffset
    symOffset symCount : Nat} {entryOffset : Int} {b : List Nat}
    (h : packHeader magic version ctype flags codeSize dataSize bssSize
      entryOffset ifaceVersion minRam relocCount relocOffset codeOffset
      dataOffset symOffset symCount = some b) :
    magic < 2 ^ 32 ∧ version < 2 ^ 16 ∧ ctype < 2 ^ 16 ∧ flags < 2 ^ 32 ∧
      codeSize < 2 ^ 32 ∧ dataSize < 2 ^ 32 ∧ bssSize < 2 ^ 32 ∧
      0 ≤ entryOffset ∧ entryOffset < 2 ^ 32 ∧
      ifaceVersion < 2 ^ 32 ∧ minRam < 2 ^ 32 ∧ relocCount < 2 ^ 32 ∧
      relocOffset < 2 ^ 32 ∧ codeOffset < 2 ^ 32 ∧ dataOffset < 2 ^ 32 ∧
      symOffset < 2 ^ 32 ∧ symCount < 2 ^ 32 := by
  rw [packHeader] at h
  split at h
  · assumption
  · cases h

lemma packHeader_length {magic version ctype flags codeSize dataSize bssSize
    ifaceVersion minRam relocCount relocOffset codeOffset dataOffset
    symOffset symCount : Nat} {entryOffset : Int} {b : List Nat}
    (h : packHeader magic version ctype flags codeSize dataSize bssSize
      entryOffset ifaceVersion minRam relocCount relocOffset codeOffset
      dataOffset symOffset symCount = some b) :
    b.length = 60 := by
  rw [packHeader_chain h]
  simp [List.length_append, pack32_length, pack16_length]

/-- C1: for every input tuple, the byte stream returned by `build_ebin`
begins with a 60-byte little-endian header whose magic is `0x4E494245` and
version is 1, with `reloc_offset = 60`, `reloc_count = len(relocations)`,
`code_offset = 60 + 8*reloc_count`, `code_size = len(code)` rounded up to a
multiple of 4 with zero padding appended to the code blob,
`data_offset = code_offset + code_size`, `data_size = len(data)`, and total
stream length `data_offset + data_size`. -/
theorem build_ebin_header_layout
    (ctype : String) (flags ifaceVersion minRam : Nat)
    (code data : List Nat) (bssSize : Nat) (entryOffset : Int)
    (relocations : List Relocation) (s : List Nat)
    (h : build_ebin ctype flags ifaceVersion minRam code data bssSize
      entryOffset relocations = some s) :
    readLE32 s 0 = 0x4E494245 ∧
    readLE16 s 4 = 1 ∧
    readLE32 s 40 = 60 ∧
    readLE32 s 36 = relocations.length ∧
    readLE32 s 44 = 60 + 8 * relocations.length ∧
    readLE32 s 12 = 4 * ((code.length + 3) / 4) ∧
    readLE32 s 48 = readLE32 s 44 + readLE32 s 12 ∧
    readLE32 s 16 = data.length ∧
    s.length = readLE32 s 48 + data.length ∧
    s.drop (60 + 8 * relocations.length) =
      (code ++ List.replicate (4 * ((code.length + 3) / 4) - code.length) 0)
        ++ data := by
  simp only [build_ebin] at h
  cases hct : componentTypes ctype with
  | none => rw [hct] at h; cases h
  | some t =>
    simp only [hct] at h
    cases hph : packHeader EBIN_MAGIC EBIN_VERSION t flags
        (pad4 code).length data.length bssSize entryOffset ifaceVersion
        minRam relocations.length 60 (60 + relocations.length * 8)
        (60 + relocations.length * 8 + (pad4 code).length) 0 0 with
    | none => simp only [hph] at h; exact Option.noConfusion h
    | some header =>
      simp only [hph] at h
      cases hpr : packRelocs relocations with
      | none => simp only [hpr] at h; exact Option.noConfusion h
      | some relocData =>
        simp only [hpr, Option.some.injEq] at h
        subst h
        have hrl := packRelocs_length hpr
        have hhl := packHeader_length hph
        obtain ⟨hm, hv, ht, hf, hcs, hds, hbs, heo1, heo2, hiv, hmr, hrc,
          hro, hco, hdo, hso, hsc⟩ := packHeader_bounds hph
        obtain ⟨H0, H4, H12, H16, H36, H40, H44, H48⟩ :=
          header_reads EBIN_MAGIC EBIN_VERSION t flags (pad4 code).length
            data.length bssSize entryOffset.toNat ifaceVersion minRam
            relocations.length 60 (60 + relocations.length * 8)
            (60 + relocations.length * 8 + (pad4 code).length) 0 0
            (relocData ++ (pad4 code ++ data)) header (packHeader_chain hph)
            hm hv hcs hds hrc hro hco hdo
        have hHR : (header ++ relocData).length =
            60 + 8 * relocations.length := by
          simp only [List.length_append, hhl, hrl]
        simp only [List.append_assoc]
        refine ⟨?_, ?_, ?_, ?_, ?_, ?_, ?_, ?_, ?_, ?_⟩
        · exact H0
        · exact H4
        · exact H40
        · exact H36
        · rw [H44]; omega
        · rw [H12, pad4_length]
        · rw [H48, H44, H12]
        · exact H16
        · rw [H48]
          simp only [List.length_append, hhl, hrl]
          omega
        · rw [← List.append_assoc, List.drop_left' hHR, pad4_eq,
            List.append_assoc]

/-- Concrete instantiation of `build_ebin_header_layout`. -/
theorem build_ebin_header_layout_witness :
    readLE32 ((build_ebin "cpu" 0 0 0 [1, 2, 3] [9] 0 0
      [⟨0, 0, 1⟩]).getD []) 0 = 0x4E494245 :=
  (build_ebin_header_layout "cpu" 0 0 0 [1, 2, 3] [9] 0 0 [⟨0, 0, 1⟩]
    ((build_ebin "cpu" 0 0 0 [1, 2, 3] [9] 0 0 [⟨0, 0, 1⟩]).getD [])
    (by decide)).1

lemma mem_reportedRelocs {elf : Elf} {r : Relocation} :
    r ∈ reportedRelocs elf ↔
      ∃ rs ∈ elf.relocSecs, ∃ e ∈ rs.entries, e.rtype = "R_RISCV_32" ∧
        ((strHas ".rela.data" rs.name = true ∧
          r = ⟨(e.offset : Int) - (dataBase elf : Int), 0, 1⟩) ∨
         (strHas ".rela.data" rs.name = false ∧
          strHas ".rela.rodata" rs.name = true ∧
          r = ⟨(e.offset : Int) - (rodataBase elf : Int), 0, 1⟩)) := by
  simp only [reportedRelocs, List.mem_flatMap, EBIN_RELOC_ABSOLUTE]
  constructor
  · rintro ⟨rs, hrs, hr⟩
    refine ⟨rs, hrs, ?_⟩
    rw [secClass] at hr
    cases h1 : strHas ".rela.data" rs.name with
    | true =>
      rw [if_pos h1] at hr
      simp only [List.mem_filterMap] at hr
      obtain ⟨e, he, heq⟩ := hr
      by_cases hty : e.rtype = "R_RISCV_32"
      · rw [if_pos hty] at heq
        exact ⟨e, he, hty, Or.inl ⟨rfl, (Option.some.injEq _ _ ▸ heq).symm⟩⟩
      · rw [if_neg hty] at heq
        exact absurd heq (by simp)
    | false =>
      rw [if_neg (by simp [h1])] at hr
      cases h2 : strHas ".rela.rodata" rs.name with
      | true =>
        rw [if_pos h2] at hr
        simp only [List.mem_filterMap] at hr
        obtain ⟨e, he, heq⟩ := hr
        by_cases hty : e.rtype = "R_RISCV_32"
        · rw [if_pos hty] at heq
          exact ⟨e, he, hty, Or.inr ⟨rfl, rfl,
            (Option.some.injEq _ _ ▸ heq).symm⟩⟩
        · rw [if_neg hty] at heq
          exact absurd heq (by simp)
      | false =>
        rw [if_neg (by simp [h2])] at hr
        exact absurd hr (by simp)
  · rintro ⟨rs, hrs, e, he, hty, hcase⟩
    refine ⟨rs, hrs, ?_⟩
    rw [secClass]
    rcases hcase with ⟨h1, hr⟩ | ⟨h1, h2, hr⟩
    · rw [if_pos h1]
      simp only [List.mem_filterMap]
      exact ⟨e, he, by rw [if_pos hty, hr]⟩
    · rw [if_neg (by simp [h1]), if_pos h2]
      simp only [List.mem_filterMap]
      exact ⟨e, he, by rw [if_pos hty, hr]⟩

lemma synthesizedGot_none {elf : Elf}
    (hg : lookupSec elf ".got" = none) : synthesizedGot elf = [] := by
  rw [synthesizedGot, hg]

lemma synthesizedGot_zero {elf : Elf} {g : ElfSection}
    (hg : lookupSec elf ".got" = some g) (hsz : g.size = 0) :
    synthesizedGot elf = [] := by
  rw [synthesizedGot, hg]
  simp [hsz]

lemma mem_synthesizedGot {elf : Elf} {g : ElfSection}
    (hg : lookupSec elf ".got" = some g) (hsz : 0 < g.size)
    {r : Relocation} :
    r ∈ synthesizedGot elf ↔
      ∃ k, k < (g.size + 3) / 4 ∧
        r = ⟨((g.addr + 4 * k : Nat) : Int) - (dataBase elf : Int), 0, 1⟩ ∧
        (((g.addr + 4 * k : Nat) : Int) - (dataBase elf : Int)) ∉
          (reportedRelocs elf).filterMap
            (fun q => if q.sec = 1 then some q.offset else none) ∧
        0 < gotWord g (4 * k) ∧ gotWord g (4 * k) ≤ bssEnd elf := by
  simp only [synthesizedGot, hg]
  rw [if_pos hsz]
  rw [List.mem_filterMap]
  constructor
  · rintro ⟨i, hi, heq⟩
    rw [List.mem_map] at hi
    obtain ⟨k, hk, hik⟩ := hi
    rw [List.mem_range] at hk
    subst hik
    refine ⟨k, hk, ?_⟩
    by_cases hmem : (((g.addr + 4 * k : Nat) : Int) - (dataBase elf : Int)) ∈
        (reportedRelocs elf).filterMap
          (fun q => if q.sec = 1 then some q.offset else none)
    · rw [if_pos hmem] at heq
      exact absurd heq (by simp)
    · rw [if_neg hmem] at heq
      by_cases hval : 0 < gotWord g (4 * k) ∧ gotWord g (4 * k) ≤ bssEnd elf
      · rw [if_pos hval] at heq
        exact ⟨(Option.some.injEq _ _ ▸ heq).symm, hmem, hval⟩
      · rw [if_neg hval] at heq
        exact absurd heq (by simp)
  · rintro ⟨k, hk, hr, hmem, hval⟩
    refine ⟨4 * k, List.mem_map.mpr ⟨k, List.mem_range.mpr hk, rfl⟩, ?_⟩
    rw [if_neg hmem, if_pos hval, hr]
    rfl

/-- C4: `extract_relocations` emits an EBIN relocation for an ELF-reported
entry exactly when the entry has type `R_RISCV_32` and sits in a relocation
section targeting `.data` or `.rodata` (recognized, as in the source, by the
substring tests on the `readelf -r` section header); the emitted entry is
ABSOLUTE, targets the data blob (section 1), and its offset is the reported
VMA minus the `.data` (resp. `.rodata`) base; entries of other sections are
never emitted. -/
theorem reported_relocation_rule (elf : Elf) (r : Relocation) :
    r ∈ reportedRelocs elf ↔
      ∃ rs ∈ elf.relocSecs, ∃ e ∈ rs.entries, e.rtype = "R_RISCV_32" ∧
        ((strHas ".rela.data" rs.name = true ∧
          r = ⟨(e.offset : Int) - (dataBase elf : Int), 0, 1⟩) ∨
         (strHas ".rela.data" rs.name = false ∧
          strHas ".rela.rodata" rs.name = true ∧
          r = ⟨(e.offset : Int) - (rodataBase elf : Int), 0, 1⟩)) :=
  mem_reportedRelocs

/-- Concrete instantiation of `reported_relocation_rule`: a `.rela.data`
entry of type `R_RISCV_32` at VMA 8 with `.data` base 4 is emitted at data
offset 4. -/
theorem reported_relocation_rule_witness :
    (⟨4, 0, 1⟩ : Relocation) ∈ reportedRelocs
      ⟨[⟨".data", 4, 4, [0, 0, 0, 0]⟩],
       [⟨".rela.data", [⟨8, "R_RISCV_32"⟩]⟩], []⟩ :=
  (reported_relocation_rule
    ⟨[⟨".data", 4, 4, [0, 0, 0, 0]⟩],
     [⟨".rela.data", [⟨8, "R_RISCV_32"⟩]⟩], []⟩ ⟨4, 0, 1⟩).mpr
    ⟨⟨".rela.data", [⟨8, "R_RISCV_32"⟩]⟩, by decide, ⟨8, "R_RISCV_32"⟩,
      by decide, by decide, Or.inl ⟨by decide, by decide⟩⟩

/-- C2: when the linked ELF has a `.got` section of nonzero size, a
relocation for the 4-byte GOT entry at address `got_addr + 4k` holding value
`V` is synthesized exactly when its data-blob offset is not already among
the ELF-reported data-blob relocation offsets and `0 < V ≤ load_span`, where
`load_span = bss_base + bss_size` from the section headers; when `.got` is
absent or empty, nothing is synthesized. -/
theorem got_synthesis_rule (elf : Elf) :
    (∀ g, lookupSec elf ".got" = some g → 0 < g.size →
      ∀ r : Relocation,
        r ∈ synthesizedGot elf ↔
          ∃ k, k < (g.size + 3) / 4 ∧
            r = ⟨((g.addr + 4 * k : Nat) : Int) - (dataBase elf : Int),
              0, 1⟩ ∧
            (((g.addr + 4 * k : Nat) : Int) - (dataBase elf : Int)) ∉
              (reportedRelocs elf).filterMap
                (fun q => if q.sec = 1 then some q.offset else none) ∧
            0 < gotWord g (4 * k) ∧ gotWord g (4 * k) ≤ bssEnd elf) ∧
    (lookupSec elf ".got" = none → synthesizedGot elf = []) ∧
    (∀ g, lookupSec elf ".got" = some g → g.size = 0 →
      synthesizedGot elf = []) :=
  ⟨fun _g hg hsz _r => mem_synthesizedGot hg hsz,
   fun hg => synthesizedGot_none hg,
   fun _g hg h0 => synthesizedGot_zero hg h0⟩

/-- Concrete instantiation of `got_synthesis_rule`: one in-range GOT entry
with no preexisting relocation is synthesized at data offset 4. -/
theorem got_synthesis_rule_witness :
    (⟨4, 0, 1⟩ : Relocation) ∈ synthesizedGot
      ⟨[⟨".data", 4, 4, [0, 0, 0, 0]⟩, ⟨".got", 8, 4, [5, 0, 0, 0]⟩,
        ⟨".bss", 12, 4, []⟩], [], []⟩ :=
  ((got_synthesis_rule
      ⟨[⟨".data", 4, 4, [0, 0, 0, 0]⟩, ⟨".got", 8, 4, [5, 0, 0, 0]⟩,
        ⟨".bss", 12, 4, []⟩], [], []⟩).1
    ⟨".got", 8, 4, [5, 0, 0, 0]⟩ (by decide) (by decide) ⟨4, 0, 1⟩).mpr
    ⟨0, by decide, by decide, by decide, by decide, by decide⟩

/-- C9: every relocation produced by `extract_relocations` targets the data
blob (section 1) and has type ABSOLUTE (0); the builder never emits a
code-blob relocation. -/
theorem extract_relocations_all_data_absolute (elf : Elf) (r : Relocation)
    (hr : r ∈ extract_relocations elf) : r.sec = 1 ∧ r.reloc_type = 0 := by
  rw [extract_relocations] at hr
  rcases List.mem_append.mp hr with h | h
  · obtain ⟨_rs, _, _e, _, _, hcase⟩ := mem_reportedRelocs.mp h
    rcases hcase with ⟨_, hr'⟩ | ⟨_, _, hr'⟩ <;> subst hr' <;> exact ⟨rfl, rfl⟩
  · cases hg : lookupSec elf ".got" with
    | none =>
      rw [synthesizedGot_none hg] at h
      exact absurd h (List.not_mem_nil r)
    | some g =>
      rcases Nat.eq_zero_or_pos g.size with h0 | hpos
      · rw [synthesizedGot_zero hg h0] at h
        exact absurd h (List.not_mem_nil r)
      · obtain ⟨_k, _, hr', _, _⟩ := (mem_synthesizedGot hg hpos).mp h
        subst hr'
        exact ⟨rfl, rfl⟩

/-- Concrete instantiation of `extract_relocations_all_data_absolute`. -/
theorem extract_relocations_all_data_absolute_witness :
    (⟨4, 0, 1⟩ : Relocation).sec = 1 ∧
      (⟨4, 0, 1⟩ : Relocation).reloc_type = 0 :=
  extract_relocations_all_data_absolute
    ⟨[⟨".data", 4, 4, [0, 0, 0, 0]⟩],
     [⟨".rela.data", [⟨8, "R_RISCV_32"⟩]⟩], []⟩ ⟨4, 0, 1⟩ (by decide)

lemma mem_of_getLast?_eq {α : Type} {l : List α} {a : α}
    (h : l.getLast? = some a) : a ∈ l := by
  have hne : l ≠ [] := by
    intro h0
    subst h0
    cases h
  rw [List.getLast?_eq_getLast_of_ne_nil hne] at h
  have hmem := List.getLast_mem hne
  have heq : l.getLast hne = a := Option.some.inj h
  rwa [heq] at hmem

lemma getLast?_eq_of_all {α : Type} {l : List α} {x : α}
    (hmem : x ∈ l) (hall : ∀ y ∈ l, y = x) : l.getLast? = some x := by
  induction l with
  | nil => cases hmem
  | cons a t ih =>
    cases t with
    | nil =>
      have := hall a (List.mem_cons_self a [])
      subst this
      rfl
    | cons b t' =>
      rw [List.getLast?_cons_cons]
      exact ih
        (by
          have hb := hall b (by simp)
          rw [← hb]
          simp)
        (fun y hy => hall y (List.mem_cons_of_mem a hy))

/-- C5: `get_entry_offset` aborts exactly when the entry symbol is absent
from the symbol table; when the symbol occurs (uniquely) at address `addr`,
it returns `addr - text_base_address`, where the `.text` base defaults to 0
when unresolved. -/
theorem get_entry_offset_rule (entrySymbol : String) (elf : Elf) :
    ((get_entry_offset entrySymbol elf).toOption = none ↔
      ∀ p ∈ elf.symbols, p.2 ≠ entrySymbol) ∧
    (∀ addr : Nat, (addr, entrySymbol) ∈ elf.symbols →
      (∀ p ∈ elf.symbols, p.2 = entrySymbol → p = (addr, entrySymbol)) →
      get_entry_offset entrySymbol elf =
        .ok ((addr : Int) - (textBaseAddr elf : Int))) := by
  constructor
  · cases hl : (elf.symbols.filter (fun p => p.2 = entrySymbol)).getLast? with
    | none =>
      simp only [get_entry_offset, hl]
      have hfe : elf.symbols.filter (fun p => p.2 = entrySymbol) = [] :=
        List.getLast?_eq_none_iff.mp hl
      rw [List.filter_eq_nil_iff] at hfe
      constructor
      · intro _ p hp
        have := hfe p hp
        simpa using this
      · intro _
        rfl
    | some p =>
      simp only [get_entry_offset, hl]
      have hp := mem_of_getLast?_eq hl
      rw [List.mem_filter] at hp
      constructor
      · intro habs
        exact absurd habs (by simp [Except.toOption])
      · intro hall
        exact absurd (by simpa using hp.2) (hall p hp.1)
  · intro addr hmem huniq
    have hfl : (elf.symbols.filter (fun p => p.2 = entrySymbol)).getLast? =
        some (addr, entrySymbol) := by
      apply getLast?_eq_of_all
      · exact List.mem_filter.mpr ⟨hmem, by simp⟩
      · intro y hy
        have h1 := (List.mem_filter.mp hy).1
        have h2 := (List.mem_filter.mp hy).2
        exact huniq y h1 (by simpa using h2)
    simp only [get_entry_offset, hfl]

/-- Concrete instantiation of `get_entry_offset_rule`: symbol at address 8
with `.text` base 0 yields entry offset 8. -/
theorem get_entry_offset_rule_witness :
    get_entry_offset "component_entry"
        ⟨[⟨".text", 0, 12, [0, 0, 0, 0, 0, 0, 0, 0, 0, 0, 0, 0]⟩],
         [], [(0, "other"), (8, "component_entry")]⟩ =
      .ok ((8 : Int) - ((0 : Nat) : Int)) := by
  have h := (get_entry_offset_rule "component_entry"
    ⟨[⟨".text", 0, 12, [0, 0, 0, 0, 0, 0, 0, 0, 0, 0, 0, 0]⟩],
     [], [(0, "other"), (8, "component_entry")]⟩).2 8 (by decide)
    (by decide)
  rw [h]
  rfl

/-- C6: the claim says a linked ELF with no `.text` section is a fatal
`MalformedElf`.  The source has no such check: extraction only fails if
`objcopy` itself fails, and with a `.rodata` section present the code-blob
extraction succeeds, so a missing `.text` is silently tolerated (the code
blob is just `.rodata`), while missing `.data`/`.got`/`.bss` are indeed
treated as empty.  This theorem evaluates the extractor at such an input. -/
theorem extract_sections_missing_text_not_fatal :
    extract_sections ⟨[⟨".rodata", 0, 4, [1, 2, 3, 4]⟩], [], []⟩ =
      some ([1, 2, 3, 4], [], 0) ∧
    lookupSec ⟨[⟨".rodata", 0, 4, [1, 2, 3, 4]⟩], [], []⟩ ".text" = none := by
  decide

/-- C7: the claim says object-file basename collisions are reported as a
`ConfigError`.  The source derives object names from source basenames with
no duplicate check: two sources with the same basename compile to the same
object path and the pipeline proceeds.  This theorem evaluates
`compile_sources` at such an input. -/
theorem compile_sources_collision_not_detected :
    compile_sources ["a/foo.c", "b/foo.c"] "tmp" (fun _ => true) =
      .ok ["tmp/foo.o", "tmp/foo.o"] ∧
    objPath "tmp" "a/foo.c" = objPath "tmp" "b/foo.c" ∧
    "a/foo.c" ≠ "b/foo.c" := by
  refine ⟨rfl, rfl, by decide⟩

/-- C8: whenever any pipeline stage fails, no output is written; the output
bytes exist only when the toolchain probe, every compilation, the link,
section extraction and entry resolution all succeeded, and then they are
exactly the successful pipeline result written in one shot. -/
theorem output_written_only_on_success (cfg : EbinConfig) (w : ToolWorld) :
    (∀ e, mainRun cfg w = .error e → writtenOutput cfg w = none) ∧
    (∀ s, writtenOutput cfg w = some s →
      w.toolchainFound = true ∧
      (compile_sources cfg.sources "tmp" w.compileOk).toOption ≠ none ∧
      w.linkOk = true ∧
      extract_sections w.elf ≠ none ∧
      (get_entry_offset cfg.entry_symbol w.elf).toOption ≠ none ∧
      mainRun cfg w = .ok s) := by
  constructor
  · intro e he
    rw [writtenOutput, he]
  · intro s hs
    rw [writtenOutput] at hs
    cases hmn : mainRun cfg w with
    | error e => rw [hmn] at hs; cases hs
    | ok bytes =>
      rw [hmn] at hs
      have hsb : bytes = s := Option.some.inj hs
      subst hsb
      rw [mainRun] at hmn
      by_cases htc : w.toolchainFound = false
      · rw [if_pos htc] at hmn; cases hmn
      · rw [if_neg htc] at hmn
        cases hcs : compile_sources cfg.sources "tmp" w.compileOk with
        | error e =>
          simp only [hcs] at hmn
          exact Except.noConfusion hmn
        | ok objs =>
          simp only [hcs] at hmn
          by_cases hlk : w.linkOk = false
          · rw [if_pos hlk] at hmn; cases hmn
          · rw [if_neg hlk] at hmn
            cases hex : extract_sections w.elf with
            | none =>
              simp only [hex] at hmn
              exact Except.noConfusion hmn
            | some triple =>
              obtain ⟨code, dataBlob, bssSize⟩ := triple
              simp only [hex] at hmn
              cases hge : get_entry_offset cfg.entry_symbol w.elf with
              | error e =>
                simp only [hge] at hmn
                exact Except.noConfusion hmn
              | ok entryOffset =>
                simp only [hge] at hmn
                cases hbe : build_ebin cfg.component_type cfg.flags
                    cfg.interface_version cfg.min_ram code dataBlob bssSize
                    entryOffset (extract_relocations w.elf) with
                | none =>
                  simp only [hbe] at hmn
                  exact Except.noConfusion hmn
                | some outBytes =>
                  exact ⟨by simpa using htc, by simp [Except.toOption],
                    by simpa using hlk, by simp, by simp [Except.toOption],
                    rfl⟩

/-- Concrete instantiation of `output_written_only_on_success`: a failed
toolchain probe leaves no output. -/
theorem output_written_only_on_success_witness :
    writtenOutput
      ⟨["main.c"], "out.ebin", "cpu", "component_entry", 65536, 0, 0⟩
      ⟨false, fun _ => true, true, ⟨[], [], []⟩⟩ = none :=
  (output_written_only_on_success
    ⟨["main.c"], "out.ebin", "cpu", "component_entry", 65536, 0, 0⟩
    ⟨false, fun _ => true, true, ⟨[], [], []⟩⟩).1 "ToolchainMissing" rfl

lemma packRelocs_some {rs : List Relocation}
    (h : ∀ r ∈ rs, 0 ≤ r.offset ∧ r.offset < 2 ^ 32 ∧ r.reloc_type < 2 ^ 8 ∧
      r.sec < 2 ^ 8) :
    ∃ bs, packRelocs rs = some bs := by
  induction rs with
  | nil => exact ⟨[], rfl⟩
  | cons r rs ih =>
    obtain ⟨bs, hbs⟩ := ih (fun q hq => h q (List.mem_cons_of_mem r hq))
    have hr := h r (List.mem_cons_self r rs)
    have hpr : packReloc r =
        some (pack32 r.offset.toNat ++ [r.reloc_type, r.sec] ++ pack16 0) := by
      rw [packReloc, if_pos hr]
    refine ⟨(pack32 r.offset.toNat ++ [r.reloc_type, r.sec] ++ pack16 0) ++ bs,
      ?_⟩
    simp only [packRelocs, hpr, hbs]

/-- C10 counterexample: with half a billion relocations — every individual
field in the claimed `[0, 2^32)` / `[0, 2^8)` ranges and a valid component
type — the derived `code_offset = 60 + 8*reloc_count` no longer fits in 32
bits, so the header packing raises (`struct.error`) and `build_ebin` does
not return a stream. -/
theorem build_ebin_not_total_on_claimed_domain :
    componentTypes "cpu" = some 1 ∧
    (0 : Nat) < 2 ^ 32 ∧
    ([] : List Nat).length < 2 ^ 32 ∧
    (List.replicate 536870912 (⟨0, 0, 1⟩ : Relocation)).length < 2 ^ 32 ∧
    (∀ r ∈ List.replicate 536870912 (⟨0, 0, 1⟩ : Relocation),
      0 ≤ r.offset ∧ r.offset < 2 ^ 32 ∧ r.reloc_type < 2 ^ 8 ∧
        r.sec < 2 ^ 8) ∧
    build_ebin "cpu" 0 0 0 [] [] 0 0
      (List.replicate 536870912 ⟨0, 0, 1⟩) = none := by
  refine ⟨rfl, by norm_num, by norm_num, ?_, ?_, ?_⟩
  · rw [List.length_replicate]
    norm_num
  · intro r hr
    have h := List.eq_of_mem_replicate hr
    subst h
    exact ⟨le_refl 0, by norm_num, by norm_num, by norm_num⟩
  · have key : ∀ L : List Relocation, L.length = 536870912 →
        build_ebin "cpu" 0 0 0 [] [] 0 0 L = none := by
      intro L hL
      simp only [build_ebin, show componentTypes "cpu" = some 1 from rfl]
      simp only [packHeader]
      rw [if_neg]
      intro hcon
      rw [hL] at hcon
      norm_num at hcon
    exact key _ (by rw [List.length_replicate])

/-- C10 (amended): `build_ebin` is total on the claimed domain provided the
derived header fields also fit in 32 bits — the padded code size, the
computed `code_offset = 60 + 8*reloc_count` and `data_offset`; then the
packing never raises and the packed header always satisfies the source's
`len(header) == 60` assertion. -/
theorem build_ebin_total_amended
    (ctype : String) (flags ifaceVersion minRam : Nat)
    (code data : List Nat) (bssSize : Nat) (entryOffset : Int)
    (relocations : List Relocation)
    (hct : ctype = "cpu" ∨ ctype = "video" ∨ ctype = "audio" ∨ ctype = "io")
    (hf : flags < 2 ^ 32) (hiv : ifaceVersion < 2 ^ 32)
    (hmr : minRam < 2 ^ 32) (hds : data.length < 2 ^ 32)
    (hbs : bssSize < 2 ^ 32) (heo1 : 0 ≤ entryOffset)
    (heo2 : entryOffset < 2 ^ 32)
    (hrel : ∀ r ∈ relocations, 0 ≤ r.offset ∧ r.offset < 2 ^ 32 ∧
      r.reloc_type < 2 ^ 8 ∧ r.sec < 2 ^ 8)
    (hcs : (pad4 code).length < 2 ^ 32)
    (hco : 60 + relocations.length * 8 < 2 ^ 32)
    (hdo : 60 + relocations.length * 8 + (pad4 code).length < 2 ^ 32) :
    (build_ebin ctype flags ifaceVersion minRam code data bssSize
      entryOffset relocations).isSome = true ∧
    (∀ (magic version ctype2 flags2 codeSize dataSize bssSize2 ifaceVersion2
        minRam2 relocCount relocOffset codeOffset dataOffset symOffset
        symCount : Nat) (entryOffset2 : Int) (b : List Nat),
      packHeader magic version ctype2 flags2 codeSize dataSize bssSize2
        entryOffset2 ifaceVersion2 minRam2 relocCount relocOffset codeOffset
        dataOffset symOffset symCount = some b → b.length = 60) := by
  constructor
  · obtain ⟨t, hctt, htlt⟩ :
        ∃ t, componentTypes ctype = some t ∧ t < 2 ^ 16 := by
      rcases hct with h | h | h | h <;> subst h <;>
        exact ⟨_, rfl, by norm_num⟩
    have hrc : relocations.length < 2 ^ 32 := by omega
    simp only [build_ebin, hctt]
    rw [packHeader, if_pos ⟨by norm_num [EBIN_MAGIC], by norm_num
      [EBIN_VERSION], htlt, hf, hcs, hds,
      hbs, heo1, heo2, hiv, hmr, hrc, by norm_num, hco, hdo, by norm_num,
      by norm_num⟩]
    obtain ⟨bs, hbs'⟩ := packRelocs_some hrel
    simp only [hbs']
    rfl
  · intro magic version ctype2 flags2 codeSize dataSize bssSize2
      ifaceVersion2 minRam2 relocCount relocOffset codeOffset dataOffset
      symOffset symCount entryOffset2 b hb
    exact packHeader_length hb

/-- Concrete instantiation of `build_ebin_total_amended`. -/
theorem build_ebin_total_amended_witness :
    (build_ebin "cpu" 0 0 0 [] [] 0 0 []).isSome = true :=
  (build_ebin_total_amended "cpu" 0 0 0 [] [] 0 0 [] (Or.inl rfl)
    (by norm_num) (by norm_num) (by norm_num) (by norm_num) (by norm_num)
    (by norm_num) (by norm_num) (by intro r hr; cases hr) (by decide)
    (by decide) (by decide)).1

lemma getD_range_map (f : Nat → Nat) (n j : Nat) (hj : j < n) :
    ((List.range n).map f).getD j 0 = f j := by
  rw [List.getD_eq_getElem?_getD]
  simp [List.getElem?_map, List.getElem?_range, hj]

lemma objcopyExtract_pair {elf : Elf} {n1 n2 : String} {d g : ElfSection}
    (hd : lookupSec elf n1 = some d) (hg : lookupSec elf n2 = some g) :
    objcopyExtract elf [n1, n2] =
      some ((List.range (Nat.max (d.addr + d.content.length)
        (g.addr + g.content.length) - Nat.min d.addr g.addr)).map
        (fun i => byteAt [d, g] (Nat.min d.addr g.addr + i))) := by
  have hfm : ([n1, n2] : List String).filterMap (lookupSec elf) = [d, g] := by
    simp [List.filterMap_cons, hd, hg]
  rw [objcopyExtract, hfm]
  rfl

lemma extract_sections_eq {elf : Elf} {cb : List Nat}
    (hc : objcopyExtract elf [".text", ".rodata"] = some cb) :
    extract_sections elf = some (cb,
      (objcopyExtract elf ([".data"] ++
        (if (lookupSec elf ".got").isSome then [".got"] else []))).getD [],
      ((lookupSec elf ".bss").map (fun s => s.size)).getD 0) := by
  rw [extract_sections, hc]

/-- C3 (amended): for every GOT-synthesized relocation targeting offset `o`
in the data blob, the little-endian word at `data[o..o+4]` lies in
`(0, bss_base + bss_size]` — the load span taken from the ELF section
headers, which is what the code checks — provided the ELF lays `.data`
(with its full contents) at or before `.got`, with the `.got` contents
matching its header size and word-aligned. -/
theorem synthesized_got_word_in_elf_load_span
    (elf : Elf) (d g : ElfSection)
    (hd : lookupSec elf ".data" = some d)
    (hg : lookupSec elf ".got" = some g)
    (hord : d.addr + d.content.length ≤ g.addr)
    (hglen : g.content.length = g.size)
    (hdiv : g.size % 4 = 0)
    (code blob : List Nat) (bss : Nat)
    (hx : extract_sections elf = some (code, blob, bss))
    (r : Relocation) (hr : r ∈ synthesizedGot elf) :
    0 < readLE32 blob r.offset.toNat ∧
      readLE32 blob r.offset.toNat ≤ bssEnd elf := by
  rcases Nat.eq_zero_or_pos g.size with h0 | hpos
  · rw [synthesizedGot_zero hg h0] at hr
    exact absurd hr (List.not_mem_nil r)
  obtain ⟨k, hk, hreq, hnmem, hv1, hv2⟩ := (mem_synthesizedGot hg hpos).mp hr
  have hdb : dataBase elf = d.addr := by
    rw [dataBase, hd]
    rfl
  have hk4 : 4 * k + 4 ≤ g.size := by omega
  have hcodeblob : ∃ cb, objcopyExtract elf [".text", ".rodata"] = some cb := by
    cases hc : objcopyExtract elf [".text", ".rodata"] with
    | none =>
      rw [extract_sections, hc] at hx
      exact Option.noConfusion hx
    | some cb => exact ⟨cb, rfl⟩
  obtain ⟨cb, hcb⟩ := hcodeblob
  rw [extract_sections_eq hcb] at hx
  have hx' := Option.some.inj hx
  rw [Prod.mk.injEq, Prod.mk.injEq] at hx'
  have hblob : blob = (objcopyExtract elf [".data", ".got"]).getD [] := by
    rw [← hx'.2.1]
    have : ([".data"] ++
        (if (lookupSec elf ".got").isSome then [".got"] else [])) =
        [".data", ".got"] := by
      rw [hg]
      rfl
    rw [this]
  have hmin : Nat.min d.addr g.addr = d.addr := Nat.min_eq_left (by omega)
  have hmax : Nat.max (d.addr + d.content.length)
      (g.addr + g.content.length) = g.addr + g.content.length :=
    Nat.max_eq_right (by omega)
  rw [objcopyExtract_pair hd hg, hmin, hmax] at hblob
  simp only [Option.getD_some] at hblob
  -- the relocation's offset as a natural number
  have hoff : r.offset.toNat = g.addr + 4 * k - d.addr := by
    rw [hreq, hdb]
    show (((g.addr + 4 * k : Nat) : Int) - (d.addr : Int)).toNat =
      g.addr + 4 * k - d.addr
    omega
  -- each of the four bytes of the blob word is the GOT byte
  have hbyte : ∀ j, j < 4 →
      blob.getD (g.addr + 4 * k - d.addr + j) 0 =
        g.content.getD (4 * k + j) 0 := by
    intro j hj
    rw [hblob]
    rw [getD_range_map _ _ _ (by omega)]
    have haddr : d.addr + (g.addr + 4 * k - d.addr + j) =
        g.addr + (4 * k + j) := by omega
    rw [haddr]
    simp only [byteAt]
    rw [if_neg (by omega), if_pos (by constructor <;> omega)]
    rw [show g.addr + (4 * k + j) - g.addr = 4 * k + j by omega]
  have hb0 : blob.getD (g.addr + 4 * k - d.addr) 0 =
      g.content.getD (4 * k) 0 := by
    have h := hbyte 0 (by omega)
    simpa using h
  have hread : readLE32 blob (g.addr + 4 * k - d.addr) =
      readLE32 g.content (4 * k) := by
    simp only [readLE32]
    rw [hb0, hbyte 1 (by omega), hbyte 2 (by omega), hbyte 3 (by omega)]
  rw [hoff, hread]
  exact ⟨hv1, hv2⟩

/-- C3 counterexample: an ELF whose `.bss` sits at address 1000 (far past
the blobs) makes the code accept a GOT word of 100, yet the produced EBIN's
header fields give `code_size + data_size + bss_size = 12`, so the stored
word 100 is far outside `(0, 12]`.  The claim's bound, taken from the EBIN
header, is not what the code enforces. -/
theorem got_reloc_word_exceeds_header_span :
    (⟨4, 0, 1⟩ : Relocation) ∈ synthesizedGot
      ⟨[⟨".text", 0, 4, [0, 0, 0, 0]⟩, ⟨".data", 4, 4, [0, 0, 0, 0]⟩,
        ⟨".got", 8, 4, [100, 0, 0, 0]⟩, ⟨".bss", 1000, 0, []⟩], [], []⟩ ∧
    extract_sections
      ⟨[⟨".text", 0, 4, [0, 0, 0, 0]⟩, ⟨".data", 4, 4, [0, 0, 0, 0]⟩,
        ⟨".got", 8, 4, [100, 0, 0, 0]⟩, ⟨".bss", 1000, 0, []⟩], [], []⟩ =
      some ([0, 0, 0, 0], [0, 0, 0, 0, 100, 0, 0, 0], 0) ∧
    ((build_ebin "cpu" 0 0 0 [0, 0, 0, 0] [0, 0, 0, 0, 100, 0, 0, 0] 0 0
        (extract_relocations
          ⟨[⟨".text", 0, 4, [0, 0, 0, 0]⟩, ⟨".data", 4, 4, [0, 0, 0, 0]⟩,
            ⟨".got", 8, 4, [100, 0, 0, 0]⟩, ⟨".bss", 1000, 0, []⟩], [],
            []⟩)).map
      (fun s => readLE32 s (readLE32 s 48 + 4))) = some 100 ∧
    ((build_ebin "cpu" 0 0 0 [0, 0, 0, 0] [0, 0, 0, 0, 100, 0, 0, 0] 0 0
        (extract_relocations
          ⟨[⟨".text", 0, 4, [0, 0, 0, 0]⟩, ⟨".data", 4, 4, [0, 0, 0, 0]⟩,
            ⟨".got", 8, 4, [100, 0, 0, 0]⟩, ⟨".bss", 1000, 0, []⟩], [],
            []⟩)).map
      (fun s => readLE32 s 12 + readLE32 s 16 + readLE32 s 20)) = some 12 ∧
    ¬(0 < (100 : Nat) ∧ (100 : Nat) ≤ 12) := by
  decide

/-- Concrete instantiation of `synthesized_got_word_in_elf_load_span`. -/
theorem synthesized_got_word_in_elf_load_span_witness :
    0 < readLE32 [0, 0, 0, 0, 5, 0, 0, 0]
        ((⟨4, 0, 1⟩ : Relocation).offset.toNat) ∧
      readLE32 [0, 0, 0, 0, 5, 0, 0, 0]
          ((⟨4, 0, 1⟩ : Relocation).offset.toNat) ≤
        bssEnd ⟨[⟨".text", 0, 4, [0, 0, 0, 0]⟩, ⟨".data", 4, 4, [0, 0, 0, 0]⟩,
          ⟨".got", 8, 4, [5, 0, 0, 0]⟩, ⟨".bss", 12, 4, []⟩], [], []⟩ :=
  synthesized_got_word_in_elf_load_span
    ⟨[⟨".text", 0, 4, [0, 0, 0, 0]⟩, ⟨".data", 4, 4, [0, 0, 0, 0]⟩,
      ⟨".got", 8, 4, [5, 0, 0, 0]⟩, ⟨".bss", 12, 4, []⟩], [], []⟩
    ⟨".data", 4, 4, [0, 0, 0, 0]⟩ ⟨".got", 8, 4, [5, 0, 0, 0]⟩
    (by decide) (by decide) (by decide) (by decide) (by decide)
    [0, 0, 0, 0] [0, 0, 0, 0, 5, 0, 0, 0] 4 (by decide) ⟨4, 0, 1⟩
    (by decide)
